import Mathlib

/-!
Verification development for the Slack/Jira interaction bot.

Shallow embedding of the source modules:
* `src/utils/slackBlocks.js` (extended version): `buildIssueMessageBlocks`,
  `buildProjectStatsBlocks`, `buildAssigneeStatsBlocks`, `buildUserIssuesBlocks`.
* `src/services/jiraService.js`: the mention-extracting `addComment` body builder.
* `src/controllers/jiraController.js`: `handleTransitionAction`,
  `handleAssignIssueAction`, `handleJiraMapCommand`, modelled as effect-trace
  functions over an environment that fixes the outcome of every external call.
* The keyed identity store (`src/database/db.js`, not present in the sources)
  is modelled from the spec.

JS `Math.round` on non-negative values rounds half up; JS number arithmetic on
the small integer counts involved is exact, so it is embedded as exact rational
rounding realised on naturals.
-/

/-- JS `Math.round(num / den)` for non-negative integers: round half up,
realised on naturals as `(2 * num + den) / (2 * den)`. -/
def jsRound (num den : Nat) : Nat := (2 * num + den) / (2 * den)

/-- One issue of a Jira search result, as consumed by the statistics builders:
`fields?.status?.name`, `fields?.assignee?.displayName`, `fields?.project?.name`,
each possibly absent. -/
structure Issue where
  statusName : Option String
  assigneeName : Option String
  projectName : Option String
deriving DecidableEq, Repr

/-- The `/search` response shape consumed by the statistics builders:
`metricsData.total` (possibly absent) and `metricsData.issues || []`. -/
structure MetricsData where
  total : Option Nat
  issues : List Issue
deriving DecidableEq, Repr

/-- `metricsData.total || issues.length`: the `||` falls through on `0` or an
absent `total`. -/
def jsTotal (m : MetricsData) : Nat :=
  match m.total with
  | some n => if n = 0 then m.issues.length else n
  | none => m.issues.length

/-- `issue.fields?.status?.name || 'Unknown'`. -/
def statusNameOf (i : Issue) : String :=
  match i.statusName with
  | some s => s
  | none => "Unknown"

/-- `issue.fields?.assignee?.displayName || 'Unassigned'`. -/
def assigneeNameOf (i : Issue) : String :=
  match i.assigneeName with
  | some s => s
  | none => "Unassigned"

/-- `statusCounts[statusName]++` with on-demand key creation.  A JS object with
string keys enumerates in insertion order, so the running tally is an
association list in first-encountered order. -/
def bump (name : String) : List (String × Nat) → List (String × Nat)
  | [] => [(name, 1)]
  | (n, c) :: rest =>
    if n = name then (n, c + 1) :: rest else (n, c) :: bump name rest

/-- The `statusCounts` object of `buildProjectStatsBlocks`: per-status tallies
in first-encountered order. -/
def statusEntries (issues : List Issue) : List (String × Nat) :=
  issues.foldl (fun acc i => bump (statusNameOf i) acc) []

/-- Stable insertion step for descending sort by a natural-number key.  An
element arriving later is placed after every earlier element whose key is
strictly greater, and before the first one whose key is less than or equal —
exactly the (stable, spec-mandated) behaviour of JS
`Array.prototype.sort((a, b) => keyOf(b) - keyOf(a))`. -/
def insDesc (key : α → Nat) (x : α) : List α → List α
  | [] => [x]
  | y :: ys => if key y ≤ key x then x :: y :: ys else y :: insDesc key x ys

/-- Stable descending sort by a natural-number key (insertion sort; any stable
sort consistent with the total comparator produces this unique result). -/
def sortDesc (key : α → Nat) : List α → List α
  | [] => []
  | x :: xs => insDesc key x (sortDesc key xs)

/-- `sortedStatuses` of `buildProjectStatsBlocks`: status tallies sorted
descending by count, stably. -/
def sortedStatusesOf (m : MetricsData) : List (String × Nat) :=
  sortDesc Prod.snd (statusEntries m.issues)

/-- `Math.round((count / fetchedCount) * 100) || 0` (division by zero yields 0,
matching the NaN guard). -/
def percentOf (count fetched : Nat) : Nat := jsRound (count * 100) fetched

/-- `Math.round((percent / 100) * barLength)` with `barLength = 20`. -/
def segOf (count fetched : Nat) : Nat := jsRound (percentOf count fetched * 20) 100

/-- The per-status `segments` sequence of the progress-bar loop: every status
except the last gets its rounded share and is subtracted from `remainingBars`
(clamped at zero, as `if (remainingBars < 0) remainingBars = 0`); the last
status receives whatever remains. -/
def segLoop (fetched : Nat) : Nat → List Nat → List Nat
  | _, [] => []
  | remaining, [_] => [remaining]
  | remaining, c :: c2 :: cs =>
    segOf c fetched :: segLoop fetched (remaining - segOf c fetched) (c2 :: cs)

/-- The allocated bar units of `buildProjectStatsBlocks`, one entry per sorted
status. -/
def statusSegmentsOf (m : MetricsData) : List Nat :=
  segLoop m.issues.length 20 ((sortedStatusesOf m).map Prod.snd)

/-- An option of the re-assign `static_select` accessory.  Its JS `value` is
`JSON.stringify(\x7b issueKey, accountId \x7d)`; the correlation payload is
embedded structurally. -/
structure SelectOption where
  label : String
  valueIssueKey : String
  valueAccountId : Option String
deriving DecidableEq, Repr

/-- An element of an `actions` block.  Transition-button values are the
correlation payload `JSON.stringify(\x7b issueKey, transitionId \x7d)`,
embedded structurally. -/
inductive ActionEl where
  | urlButton (label : String) (url : String) (actionId : String)
  | valueButton (label : String) (value : String) (actionId : String)
  | transitionButton (label : String) (valueIssueKey : String)
      (valueTransitionId : String) (actionId : String)
deriving DecidableEq, Repr

/-- A Slack Block Kit block as produced by the renderers.  `mrkdwn`
field/element payloads are carried as their text strings. -/
inductive Block where
  | header (text : String)
  | context (elements : List String)
  | divider
  | sectionText (text : String)
  | sectionFields (fields : List String)
  | sectionSelect (text : String) (options : List SelectOption)
  | actions (elements : List ActionEl)
deriving DecidableEq, Repr

/-- `rawDomain.replace(/^https?:\/\//, '').replace(/\/$/, '')`. -/
def normalizeDomain (raw : String) : String :=
  let s := if "https://".isPrefixOf raw then raw.drop 8
           else if "http://".isPrefixOf raw then raw.drop 7
           else raw
  if s.endsWith "/" then s.dropRight 1 else s

/-- The issue payload consumed by `buildIssueMessageBlocks`: summary, status
name and assignee display name (each possibly absent) and whether a
description document is present. -/
structure IssueData where
  summary : Option String
  statusName : Option String
  assigneeName : Option String
  hasDescription : Bool
deriving DecidableEq, Repr

/-- An available transition, `\x7b id, name \x7d`. -/
structure Transition where
  id : String
  name : String
deriving DecidableEq, Repr

/-- An assignable user, `\x7b accountId, displayName \x7d`. -/
structure JUser where
  accountId : String
  displayName : String
deriving DecidableEq, Repr

/-- `buildIssueMessageBlocks` (extended version with the re-assign dropdown):
header, status/assignee fields, description context, divider, the fixed action
row, then — only when `assignableUsers` is non-empty — the re-assign select
with a leading null-account "Unassigned" option plus the first 99 users, and —
only when `transitions` is non-empty — at most 4 transition buttons. -/
def buildIssueMessageBlocks (rawDomain : String) (issue : IssueData)
    (issueKey : String) (transitions : List Transition)
    (assignableUsers : List JUser) : List Block :=
  let domain := normalizeDomain rawDomain
  let summary := match issue.summary with | some s => s | none => "No Summary"
  let statusName := match issue.statusName with | some s => s | none => "Unknown Status"
  let assigneeName := match issue.assigneeName with | some s => s | none => "Unassigned"
  let issueLink := "https://" ++ domain ++ "/browse/" ++ issueKey
  let descText := if issue.hasDescription then "📝 Description available on Jira"
                  else "📝 No description provided"
  let base : List Block :=
    [Block.header ("🎫 " ++ issueKey ++ ": " ++ summary),
     Block.sectionFields ["*Status:*\n" ++ statusName, "*Assignee:*\n" ++ assigneeName],
     Block.context [descText],
     Block.divider,
     Block.actions
       [ActionEl.urlButton "View in Jira" issueLink "view_jira_issue",
        ActionEl.valueButton "💬 Add Comment" issueKey "open_comment_modal"]]
  let withAssign :=
    if assignableUsers.isEmpty then base
    else
      let userOptions :=
        SelectOption.mk "👤 Unassigned" issueKey none ::
          (assignableUsers.take 99).map
            (fun u => SelectOption.mk u.displayName issueKey (some u.accountId))
      base ++ [Block.sectionSelect "🔄 *Re-assign Issue:*" userOptions]
  if transitions.isEmpty then withAssign
  else
    withAssign ++
      [Block.actions ((transitions.take 4).map
        (fun t => ActionEl.transitionButton t.name issueKey t.id ("transition_" ++ t.id)))]

/-- The cycled block emojis of the progress bar (`blockEmojis[index % 8]`). -/
def blockEmojis : List String := ["🟩", "🟨", "🟦", "🟪", "🟧", "🟥", "🟫", "⬜"]

/-- `blockEmojis[index % blockEmojis.length]`. -/
def emojiAt (i : Nat) : String := blockEmojis.getD (i % blockEmojis.length) ""

/-- `emoji.repeat(n)`. -/
def repeatStr (s : String) (n : Nat) : String := String.join (List.replicate n s)

/-- The `progressBar` string: each sorted status appends its emoji repeated by
its allocated segments; an empty bar falls back to 20 white squares. -/
def progressBarOf (m : MetricsData) : String :=
  let bar := String.join
    ((statusSegmentsOf m).enum.map (fun p => repeatStr (emojiAt p.1) p.2))
  if bar.length = 0 then repeatStr "⬜" 20 else bar

/-- The empty-state document of `buildProjectStatsBlocks`. -/
def projectStatsEmptyState (projectKey : String) : List Block :=
  [Block.sectionText ("📊 *Project " ++ projectKey ++ " Statistics*\nNo issues found in this project yet.")]

/-- `issues[0].fields?.project?.name`, falling back to the project key. -/
def projectNameOf (issues : List Issue) (projectKey : String) : String :=
  match issues with
  | [] => projectKey
  | i :: _ => match i.projectName with | some n => n | none => projectKey

/-- `buildProjectStatsBlocks`. -/
def buildProjectStatsBlocks (m : MetricsData) (projectKey : String) : List Block :=
  if jsTotal m = 0 then projectStatsEmptyState projectKey
  else
    let fetchedCount := m.issues.length
    let sortedStatuses := sortedStatusesOf m
    let statusFields := sortedStatuses.enum.map (fun p =>
      "*" ++ emojiAt p.1 ++ " " ++ p.2.1 ++ ":*\n" ++ toString p.2.2 ++ " tasks")
    let progressLabels := sortedStatuses.enum.map (fun p =>
      emojiAt p.1 ++ " `" ++ toString (percentOf p.2.2 fetchedCount) ++ "% " ++ p.2.1 ++ "`")
    [Block.header ("📊 Project: " ++ projectNameOf m.issues projectKey ++ " Overview"),
     Block.context ["Based on the latest " ++ toString fetchedCount ++
       " issues (Total in backlog: " ++ toString (jsTotal m) ++ ")"],
     Block.sectionText ("*Progress Bar:*\n" ++ progressBarOf m ++ "\n" ++
       String.intercalate " | " progressLabels),
     Block.divider,
     Block.sectionFields (statusFields ++
       ["*📦 Total Fetched:*\n" ++ toString fetchedCount ++ " tasks"])]

/-- JS `haystack.includes(needle)` on strings, via list infix search. -/
def isInfixQ (sub : List Char) : List Char → Bool
  | [] => sub.isEmpty
  | c :: t => sub.isPrefixOf (c :: t) || isInfixQ sub t

/-- `lhs.toLowerCase().includes(rhs)`. -/
def includesQ (s sub : String) : Bool := isInfixQ sub.toList s.toList

/-- The status emoji of `buildAssigneeStatsBlocks` (done/closed checked
first). -/
def workloadStatusEmoji (statusName : String) : String :=
  let ls := statusName.toLower
  if includesQ ls "done" || includesQ ls "closed" then "✅"
  else if includesQ ls "progress" || includesQ ls "review" then "⏳"
  else if includesQ ls "to do" || includesQ ls "open" then "📝"
  else "🔹"

/-- One `assigneeStats` bucket: running total plus per-status tallies in
first-encountered order. -/
abbrev AssigneeEntry := String × Nat × List (String × Nat)

/-- `assigneeStats[assigneeName].total++` together with
`assigneeStats[assigneeName].statuses[statusName]++`, creating the bucket on
demand; buckets enumerate in insertion order. -/
def bumpAssignee (aname sname : String) : List AssigneeEntry → List AssigneeEntry
  | [] => [(aname, 1, bump sname [])]
  | (n, t, sts) :: rest =>
    if n = aname then (n, t + 1, bump sname sts) :: rest
    else (n, t, sts) :: bumpAssignee aname sname rest

/-- The `assigneeStats` object of `buildAssigneeStatsBlocks`. -/
def assigneeEntries (issues : List Issue) : List AssigneeEntry :=
  issues.foldl (fun acc i => bumpAssignee (assigneeNameOf i) (statusNameOf i) acc) []

/-- The empty-state document of `buildAssigneeStatsBlocks`. -/
def assigneeStatsEmptyState (projectKey : String) : List Block :=
  [Block.sectionText ("👥 *Team Workload: " ++ projectKey ++ "*\nNo issues found in this project.")]

/-- `buildAssigneeStatsBlocks`. -/
def buildAssigneeStatsBlocks (m : MetricsData) (projectKey : String) : List Block :=
  if jsTotal m = 0 then assigneeStatsEmptyState projectKey
  else
    let sortedAssignees := sortDesc (fun e => e.2.1) (assigneeEntries m.issues)
    [Block.header ("👥 Team Workload: " ++ projectNameOf m.issues projectKey),
     Block.context ["Showing active workload distribution for the latest " ++
       toString m.issues.length ++ " tasks."],
     Block.divider] ++
    sortedAssignees.map (fun e =>
      let statusDetails := String.intercalate " | "
        ((sortDesc Prod.snd e.2.2).map (fun sc =>
          workloadStatusEmoji sc.1 ++ " `" ++ toString sc.2 ++ " " ++ sc.1 ++ "`"))
      Block.sectionText ("*👤 " ++ e.1 ++ "* (" ++ toString e.2.1 ++ " tasks)\n" ++ statusDetails))

/-- One issue of the `/jira-tasks` search result: key, optional summary,
optional status name. -/
structure UserIssue where
  key : String
  summary : Option String
  statusName : Option String
deriving DecidableEq, Repr

/-- The `/search` response shape consumed by `buildUserIssuesBlocks`
(`issuesData.issues || []`). -/
structure IssuesData where
  issues : List UserIssue
deriving DecidableEq, Repr

/-- `(str.length > n) ? str.slice(0, n - 1) + ellipsis : str`. -/
def truncateStr (s : String) (n : Nat) : String :=
  if n < s.length then s.take (n - 1) ++ "…" else s

/-- The status emoji of `buildUserIssuesBlocks` (progress/review checked
first, and `close` rather than `closed`). -/
def taskStatusEmoji (statusName : String) : String :=
  let ls := statusName.toLower
  if includesQ ls "progress" || includesQ ls "review" then "⏳"
  else if includesQ ls "to do" || includesQ ls "open" then "📝"
  else if includesQ ls "done" || includesQ ls "close" then "✅"
  else "🔹"

/-- The two field cells pushed per issue: the linked key-and-summary cell and
the emoji-status cell. -/
def taskCells (domain : String) (i : UserIssue) : List String :=
  let summary := truncateStr (match i.summary with | some s => s | none => "No Summary") 60
  let status := match i.statusName with | some s => s | none => "Unknown"
  ["<https://" ++ domain ++ "/browse/" ++ i.key ++ "|*" ++ i.key ++ "*> - " ++ summary,
   taskStatusEmoji status ++ " " ++ status]

/-- The pagination loop of `buildUserIssuesBlocks`: each issue appends its two
cells to the running buffer, which is flushed into a `section` block once it
holds at least 10 field cells or the last issue has been processed. -/
def flushFold (domain : String) (cur : List String) : List UserIssue → List Block
  | [] => []
  | [i] => [Block.sectionFields (cur ++ taskCells domain i)]
  | i :: i2 :: rest =>
    let cur2 := cur ++ taskCells domain i
    if 10 ≤ cur2.length then Block.sectionFields cur2 :: flushFold domain [] (i2 :: rest)
    else flushFold domain cur2 (i2 :: rest)

/-- `buildUserIssuesBlocks`: empty state, or header/divider, the paginated
field sections seeded with the two column-title cells, then divider and
context. -/
def buildUserIssuesBlocks (rawDomain : String) (data : IssuesData)
    (displayName : String) : List Block :=
  if data.issues.isEmpty then
    [Block.sectionText ("🎯 *" ++ displayName ++ "\x27s Active Tasks*\nWoohoo! No open issues found.")]
  else
    let domain := normalizeDomain rawDomain
    [Block.header ("🎯 Active Tasks: " ++ displayName ++ " (" ++ toString data.issues.length ++ ")"),
     Block.divider] ++
    flushFold domain ["*Key & Summary*", "*Status*"] data.issues ++
    [Block.divider,
     Block.context ["Showing up to 100 active tasks. Search full queries on Jira."]]

/-- The field-cell count of every `section`-with-fields block, in order. -/
def sectionFieldLens (bs : List Block) : List Nat :=
  bs.filterMap (fun b => match b with
    | Block.sectionFields fs => some fs.length
    | _ => none)

/-- Length-only image of the pagination loop: the group sizes depend only on
the buffer length and the number of remaining issues. -/
def lenLoop : Nat → Nat → List Nat
  | _, 0 => []
  | c, n + 1 =>
    if n = 0 then [c + 2]
    else if 10 ≤ c + 2 then (c + 2) :: lenLoop 0 n else lenLoop (c + 2) n

/-- A content node of an Atlassian Document Format paragraph: plain text or an
account mention, carried over character lists. -/
inductive ADFNode where
  | text (s : List Char)
  | mention (id : List Char)
deriving DecidableEq, Repr

/-- The opening characters of the inline mention token `[~accountid:`. -/
def mentionOpen : List Char := "[~accountid:".toList

/-- Strips an expected leading character sequence, or fails. -/
def dropPrefixQ : List Char → List Char → Option (List Char)
  | [], s => some s
  | _ :: _, [] => none
  | p :: ps, c :: cs => if c = p then dropPrefixQ ps cs else none

/-- One attempt of the scanning regex `\[~accountid:([^\]]+)\]` at the head of
the string: the opening token, then at least one non-`]` character, then `]`.
Returns the captured account id and the remainder after the match. -/
def tryMention (s : List Char) : Option (List Char × List Char) :=
  match dropPrefixQ mentionOpen s with
  | none => none
  | some rest =>
    match rest.takeWhile (fun c => c != ']'), rest.dropWhile (fun c => c != ']') with
    | [], _ => none
    | _ :: _, [] => none
    | idh :: idt, _ :: afterClose => some (idh :: idt, afterClose)

/-- Prepends one character of surrounding text onto the node sequence, merging
into a leading text node so that empty runs are never materialised. -/
def consTextChar (c : Char) : List ADFNode → List ADFNode
  | ADFNode.text t :: ns => ADFNode.text (c :: t) :: ns
  | ns => ADFNode.text [c] :: ns

/-- The left-to-right scan of `addComment`: at each position either a mention
token matches (emitting a mention node and resuming after it) or the character
joins the current text run.  Fuel is the string length; every step consumes at
least one character. -/
def extractFuel : Nat → List Char → List ADFNode
  | 0, _ => []
  | _ + 1, [] => []
  | fuel + 1, c :: rest =>
    match tryMention (c :: rest) with
    | some (id, r) => ADFNode.mention id :: extractFuel fuel r
    | none => consTextChar c (extractFuel fuel rest)

/-- Token extraction over a whole string. -/
def extractNodes (s : List Char) : List ADFNode := extractFuel s.length s

/-- `fullText`: the free text, with ` [~accountid:ID]` appended when a truthy
mention account id is supplied (a separating space is added unless the text
already ends with one). -/
def fullTextOf (t : List Char) : Option (List Char) → List Char
  | none => t
  | some a =>
    if a.isEmpty then t
    else
      (if t.getLast? = some ' ' then t else t ++ [' ']) ++
        mentionOpen ++ a ++ [']']

/-- The paragraph content built by `addComment`: the extracted node sequence,
or a single one-space text node when extraction yields nothing (ADF forbids
empty paragraph content). -/
def encodeNodes (t : List Char) (id : Option (List Char)) : List ADFNode :=
  let ns := extractNodes (fullTextOf t id)
  if ns = [] then [ADFNode.text [' ']] else ns

/-- Reconstruction of flat text from a node sequence, per the spec of the
mention encoder: text nodes contribute their text, mention nodes contribute
their inline token. -/
def decodeNodes : List ADFNode → List Char
  | [] => []
  | ADFNode.text t :: ns => t ++ decodeNodes ns
  | ADFNode.mention id :: ns => mentionOpen ++ (id ++ (']' :: decodeNodes ns))

/-- One row of the identity store: chat user id (key), tracker account id,
tracker email. -/
structure UserMapping where
  slack_id : String
  jira_account_id : String
  jira_email : String
deriving DecidableEq, Repr

/-- The identity store: one keyed table. -/
abbrev Db := List UserMapping

/-- Modelled from the spec: `db.saveUserMapping` of the keyed persistence
store (`src/database/db.js`, absent from the sources) — upsert by chat id:
relinking replaces the row, never duplicates. -/
def saveUserMapping : Db → String → String → String → Db
  | [], sid, acc, email => [UserMapping.mk sid acc email]
  | m :: rest, sid, acc, email =>
    if m.slack_id = sid then UserMapping.mk sid acc email :: rest
    else m :: saveUserMapping rest sid acc email

/-- Modelled from the spec: `db.getUserMapping` — lookup by chat id;
"unmapped" is a normal outcome. -/
def getUserMapping (db : Db) (sid : String) : Option UserMapping :=
  db.find? (fun m => m.slack_id == sid)

/-- Modelled from the spec: delete-by-key of the keyed persistence store. -/
def deleteUserMapping (db : Db) (sid : String) : Db :=
  db.filter (fun m => !(m.slack_id == sid))

/-- The identity-store invariant: at most one active mapping per chat id. -/
def KeyUnique (db : Db) : Prop := (db.map (fun m => m.slack_id)).Nodup

/-- The `/jira-map` success path: the first user returned by the tracker
search is persisted for the invoking chat id via `db.saveUserMapping`. -/
def handleJiraMapLink (db : Db) (sid : String) (u : JUser) (email : String) : Db :=
  saveUserMapping db sid u.accountId email

/-- Decidable equality of call outcomes. -/
instance {ε α : Type} [DecidableEq ε] [DecidableEq α] : DecidableEq (Except ε α) := fun a b =>
  match a, b with
  | Except.error x, Except.error y =>
    if h : x = y then isTrue (by rw [h]) else isFalse (by intro hc; cases hc; exact h rfl)
  | Except.ok x, Except.ok y =>
    if h : x = y then isTrue (by rw [h]) else isFalse (by intro hc; cases hc; exact h rfl)
  | Except.error _, Except.ok _ => isFalse (by intro hc; cases hc)
  | Except.ok _, Except.error _ => isFalse (by intro hc; cases hc)

/-- Outcomes of every external call a dispatcher run can make, fixed up front:
tracker calls fail with an HTTP status code, store calls fail opaquely.  The
identity lookup yields the mapped tracker account id, when one exists. -/
structure CallEnv where
  transitionIssue : Except Nat Unit
  assignIssue : Except Nat Unit
  getUserMapping : Except Unit (Option String)
  addComment : Except Nat Unit
  getIssue : Except Nat Unit
  getTransitions : Except Nat Unit
  getProjectUsers : Except Nat Unit
deriving DecidableEq, Repr

/-- The observable effects of a dispatcher run, in order.  A `respond` records
the requested `replace_original` flag (absent means `false`) and whether the
payload marked itself ephemeral; the success re-render respond is
distinguished because it carries the rebuilt issue blocks. -/
inductive Effect where
  | ack
  | respond (replaceOriginal : Bool) (ephemeral : Bool) (text : String)
  | respondBlocks (replaceOriginal : Bool) (issueKey : String)
  | callTransition (issueKey : String) (transitionId : String)
  | callAssignIssue (issueKey : String) (accountId : Option String)
  | callGetUserMapping (sid : String)
  | callAddComment (issueKey : String) (comment : String)
  | callGetIssue (issueKey : String)
  | callGetTransitions (issueKey : String)
  | callGetProjectUsers (projectKey : String)
  | logErr (tag : String) (code : Nat)
  | logDbErr (tag : String)
  | logWarn (tag : String)
deriving DecidableEq, Repr

/-- `issueKey.match(/^([A-Z0-9]+)-\d+$/i)`: the key splits at a single dash
into a non-empty alphanumeric project part and a non-empty digit part. -/
def projectKeyOf (issueKey : String) : Option String :=
  match issueKey.splitOn "-" with
  | [a, b] =>
    if a ≠ "" ∧ b ≠ "" ∧ a.toList.all (fun c => c.isAlphanum)
        ∧ b.toList.all (fun c => c.isDigit) then some a else none
  | _ => none

/-- The assignable-users fetch shared by the re-render paths: skipped when the
key yields no project part; a failure is logged as a warning and swallowed
(the dropdown is simply hidden). -/
def projectUsersTrace (env : CallEnv) (issueKey : String) : List Effect :=
  match projectKeyOf issueKey with
  | none => []
  | some pk =>
    Effect.callGetProjectUsers pk ::
    match env.getProjectUsers with
    | Except.error _ => [Effect.logWarn "assignable-users"]
    | Except.ok _ => []

/-- The audit step of `handleTransitionAction`, the inner try/catch: resolve
the actor identity and write the attributed audit comment; any failure inside
is logged and swallowed. -/
def transitionAuditTrace (env : CallEnv) (issueKey sid : String)
    (label : Option String) : List Effect :=
  if sid = "" then []
  else
    Effect.callGetUserMapping sid ::
    match env.getUserMapping with
    | Except.error _ => [Effect.logDbErr "transition-identity"]
    | Except.ok userMap =>
      let transitionName := match label with | some t => t | none => "new status"
      let actorText := match userMap with
        | some acc => "[~accountid:" ++ acc ++ "]"
        | none => "user (Slack ID: " ++ sid ++ "). Use `/jira-map` to link your account."
      Effect.callAddComment issueKey
        ("🔄 Status updated to \"" ++ transitionName ++ "\" from Slack by " ++ actorText) ::
      match env.addComment with
      | Except.error code => [Effect.logErr "transition-identity" code]
      | Except.ok _ => []

/-- `handleTransitionAction` as an effect trace: ack; parse the correlation
payload (failure falls to the outer catch); in-place placeholder; the
mutation; the swallowed audit step; re-fetch issue and transitions; assignable
users; re-render in place.  Every uncaught failure lands in the outer catch,
which logs and sends the generic non-replacing ephemeral failure notice. -/
def handleTransitionAction (env : CallEnv) (actionValue : Option (String × String))
    (label : Option String) (sid : String) : List Effect :=
  Effect.ack ::
  match actionValue with
  | none => [Effect.logErr "transition-action" 0,
             Effect.respond false true "❌ Failed to update issue."]
  | some (issueKey, transitionId) =>
    Effect.respond true false ("⏳ *Updating status for " ++ issueKey ++ "...*") ::
    Effect.callTransition issueKey transitionId ::
    match env.transitionIssue with
    | Except.error code => [Effect.logErr "transition-action" code,
                            Effect.respond false true "❌ Failed to update issue."]
    | Except.ok _ =>
      transitionAuditTrace env issueKey sid label ++
      Effect.callGetIssue issueKey ::
      match env.getIssue with
      | Except.error code => [Effect.logErr "transition-action" code,
                              Effect.respond false true "❌ Failed to update issue."]
      | Except.ok _ =>
        Effect.callGetTransitions issueKey ::
        match env.getTransitions with
        | Except.error code => [Effect.logErr "transition-action" code,
                                Effect.respond false true "❌ Failed to update issue."]
        | Except.ok _ =>
          projectUsersTrace env issueKey ++ [Effect.respondBlocks true issueKey]

/-- `targetText` of the re-assignment audit comment. -/
def assignTargetText (accountId : Option String) : String :=
  match accountId with
  | some a => "[~accountid:" ++ a ++ "]"
  | none => "Unassigned"

/-- `actorText` of the re-assignment audit comment. -/
def assignActorText (userMap : Option String) (sid : String) : String :=
  match userMap with
  | some acc => "[~accountid:" ++ acc ++ "]"
  | none => "user (Slack ID: " ++ sid ++ ")"

/-- The re-assignment audit comment. -/
def assignAuditComment (accountId : Option String) (userMap : Option String)
    (sid : String) : String :=
  "🔄 Assignee updated to " ++ assignTargetText accountId ++ " from Slack by " ++
    assignActorText userMap sid

/-- `handleAssignIssueAction` as an effect trace.  Unlike the transition
handler, the identity lookup and the audit comment sit directly in the outer
try: a failure of either falls to the outer catch and the run ends with the
generic failure notice, before any re-fetch. -/
def handleAssignIssueAction (env : CallEnv)
    (selected : Option (Option (String × Option String))) (sid : String) : List Effect :=
  Effect.ack ::
  match selected with
  | none => []
  | some none => [Effect.logErr "assign-action" 0,
                  Effect.respond false true "❌ Failed to re-assign issue."]
  | some (some (issueKey, accountId)) =>
    Effect.respond true false ("⏳ *Updating assignee for " ++ issueKey ++ "...*") ::
    Effect.callAssignIssue issueKey accountId ::
    match env.assignIssue with
    | Except.error code => [Effect.logErr "assign-action" code,
                            Effect.respond false true "❌ Failed to re-assign issue."]
    | Except.ok _ =>
      Effect.callGetUserMapping sid ::
      match env.getUserMapping with
      | Except.error _ => [Effect.logDbErr "assign-action",
                           Effect.respond false true "❌ Failed to re-assign issue."]
      | Except.ok userMap =>
        Effect.callAddComment issueKey (assignAuditComment accountId userMap sid) ::
        match env.addComment with
        | Except.error code => [Effect.logErr "assign-action" code,
                                Effect.respond false true "❌ Failed to re-assign issue."]
        | Except.ok _ =>
          Effect.callGetIssue issueKey ::
          match env.getIssue with
          | Except.error code => [Effect.logErr "assign-action" code,
                                  Effect.respond false true "❌ Failed to re-assign issue."]
          | Except.ok _ =>
            Effect.callGetTransitions issueKey ::
            match env.getTransitions with
            | Except.error code => [Effect.logErr "assign-action" code,
                                    Effect.respond false true "❌ Failed to re-assign issue."]
            | Except.ok _ =>
              projectUsersTrace env issueKey ++ [Effect.respondBlocks true issueKey]

/-- Is the effect an actor-visible response? -/
def isRespondEffect : Effect → Bool
  | Effect.respond _ _ _ => true
  | Effect.respondBlocks _ _ => true
  | _ => false

/-- The actor-visible responses of a trace, in order. -/
def respondsOf (tr : List Effect) : List Effect := tr.filter isRespondEffect

/-- Does the effect replace the current surface in place? -/
def isReplacingEffect : Effect → Bool
  | Effect.respond true _ _ => true
  | Effect.respondBlocks true _ => true
  | _ => false

/-- The last in-place replacement of the interactive surface, i.e. what the
surface shows once the run has ended. -/
def lastReplacing (tr : List Effect) : Option Effect :=
  tr.reverse.find? isReplacingEffect

/-- Is the effect an audit-comment write? -/
def isAddCommentCall : Effect → Bool
  | Effect.callAddComment _ _ => true
  | _ => false

/-- Did the run reach the terminal re-render? -/
def rerendered (tr : List Effect) : Bool :=
  tr.any (fun e => match e with | Effect.respondBlocks _ _ => true | _ => false)

/-- Effects an isolated audit step is allowed to produce: its own two calls
and swallowed-failure logs — no responses, no re-fetches, no mutations. -/
def isAuditStepEffect : Effect → Bool
  | Effect.callGetUserMapping _ => true
  | Effect.callAddComment _ _ => true
  | Effect.logDbErr _ => true
  | Effect.logErr _ _ => true
  | _ => false

/-- The option lists of every rendered re-assign select, in order. -/
def selectMenus (bs : List Block) : List (List SelectOption) :=
  bs.filterMap (fun b => match b with
    | Block.sectionSelect _ opts => some opts
    | _ => none)

/-- Eight issues with eight distinct statuses, one each. -/
def m8 : MetricsData :=
  ⟨none, ["A", "B", "C", "D", "E", "F", "G", "H"].map (fun s => Issue.mk (some s) none none)⟩

/-- A search response reporting five backlog issues while carrying an empty
issue page. -/
def mTotalOnly : MetricsData := ⟨some 5, []⟩

/-- A 23-issue task list. -/
def sample23 : IssuesData := ⟨List.replicate 23 (UserIssue.mk "T-1" none none)⟩

/-- An environment in which the transition mutation fails with HTTP 404 and
every other call succeeds. -/
def env404 : CallEnv :=
  ⟨Except.error 404, Except.ok (), Except.ok none, Except.ok (),
   Except.ok (), Except.ok (), Except.ok ()⟩

/-- The same environment with a non-404 transition failure. -/
def env500 : CallEnv :=
  ⟨Except.error 500, Except.ok (), Except.ok none, Except.ok (),
   Except.ok (), Except.ok (), Except.ok ()⟩

/-- An environment in which every tracker mutation succeeds but the identity
lookup fails. -/
def envAuditFail : CallEnv :=
  ⟨Except.ok (), Except.ok (), Except.error (), Except.ok (),
   Except.ok (), Except.ok (), Except.ok ()⟩

theorem dropPrefixQ_some : ∀ (p s r : List Char), dropPrefixQ p s = some r → s = p ++ r := by
  intro p
  induction p with
  | nil => intro s r h; simp [dropPrefixQ] at h; simp [h]
  | cons ph pt ih =>
    intro s r h
    cases s with
    | nil => simp [dropPrefixQ] at h
    | cons c cs =>
      by_cases hc : c = ph
      · simp only [dropPrefixQ, if_pos hc] at h
        have := ih cs r h
        simp [hc, this]
      · simp [dropPrefixQ, hc] at h

theorem dropWhile_head_not (p : Char → Bool) :
    ∀ (l : List Char) (c : Char) (t : List Char), l.dropWhile p = c :: t → p c = false := by
  intro l
  induction l with
  | nil => intro c t h; simp at h
  | cons x xs ih =>
    intro c t h
    by_cases hx : p x
    · rw [List.dropWhile_cons, if_pos hx] at h; exact ih _ _ h
    · rw [List.dropWhile_cons, if_neg hx] at h
      injection h with h1 h2
      simp only [Bool.not_eq_true] at hx
      rwa [← h1]

theorem tryMention_eq (s idc r : List Char) (h : tryMention s = some (idc, r)) :
    s = mentionOpen ++ (idc ++ (']' :: r)) := by
  unfold tryMention at h
  split at h
  · exact absurd h (by simp)
  · rename_i rest hp
    split at h
    · exact absurd h (by simp)
    · exact absurd h (by simp)
    · rename_i idh idt ch chs htw hdw
      simp only [Option.some.injEq, Prod.mk.injEq] at h
      obtain ⟨h1, h2⟩ := h
      have hres : s = mentionOpen ++ rest := dropPrefixQ_some _ _ _ hp
      have hchar := dropWhile_head_not (fun c => c != ']') rest ch chs hdw
      have hch : ch = ']' := by simpa using hchar
      have hrest : rest = (idh :: idt) ++ (ch :: chs) := by
        rw [← htw, ← hdw]; exact (List.takeWhile_append_dropWhile _ _).symm
      rw [hres, hrest, h1, h2, hch]

theorem tryMention_length (s idc r : List Char) (h : tryMention s = some (idc, r)) :
    r.length < s.length := by
  have he := tryMention_eq s idc r h
  have : s.length = mentionOpen.length + (idc.length + (r.length + 1)) := by
    rw [he]; simp
  omega

theorem consTextChar_decode (c : Char) (ns : List ADFNode) :
    decodeNodes (consTextChar c ns) = c :: decodeNodes ns := by
  cases ns with
  | nil => rfl
  | cons n ns2 =>
    cases n with
    | text t => rfl
    | mention id => rfl

theorem consTextChar_ne_nil (c : Char) (ns : List ADFNode) : consTextChar c ns ≠ [] := by
  cases ns with
  | nil => simp [consTextChar]
  | cons n ns2 => cases n <;> simp [consTextChar]

theorem decode_extractFuel : ∀ (fuel : Nat) (s : List Char), s.length ≤ fuel →
    decodeNodes (extractFuel fuel s) = s := by
  intro fuel
  induction fuel with
  | zero =>
    intro s hs
    have hnil : s = [] := by cases s with
      | nil => rfl
      | cons c cs => simp at hs
    subst hnil; rfl
  | succ n ih =>
    intro s hs
    cases s with
    | nil => rfl
    | cons c rest =>
      cases htm : tryMention (c :: rest) with
      | some pr =>
        obtain ⟨idc, r⟩ := pr
        have hspec := tryMention_eq _ _ _ htm
        have hlen : r.length < (c :: rest).length := tryMention_length _ _ _ htm
        simp only [extractFuel, htm, decodeNodes]
        rw [ih r (by simp at hlen hs; omega)]
        exact hspec.symm
      | none =>
        simp only [extractFuel, htm]
        rw [consTextChar_decode, ih rest (by simp at hs; omega)]

theorem decode_extractNodes (s : List Char) : decodeNodes (extractNodes s) = s :=
  decode_extractFuel s.length s le_rfl

theorem extractFuel_cons_ne_nil (fuel : Nat) (c : Char) (rest : List Char) :
    extractFuel (fuel + 1) (c :: rest) ≠ [] := by
  cases htm : tryMention (c :: rest) with
  | some pr => obtain ⟨idc, r⟩ := pr; simp [extractFuel, htm]
  | none => simp [extractFuel, htm, consTextChar_ne_nil]

theorem extractNodes_eq_nil_iff (s : List Char) : extractNodes s = [] ↔ s = [] := by
  constructor
  · intro h
    cases s with
    | nil => rfl
    | cons c rest => exact absurd h (extractFuel_cons_ne_nil rest.length c rest)
  · intro h; subst h; rfl

/-- C4: the mention encoder is idempotent under round-trip — re-encoding the
flat text reconstructed from a prior encoding reproduces the same node
sequence, for every free text and every optional identity reference. -/
theorem c4_mention_roundtrip (t : List Char) (id : Option (List Char)) :
    encodeNodes (decodeNodes (encodeNodes t id)) none = encodeNodes t id := by
  by_cases h : extractNodes (fullTextOf t id) = []
  · have h1 : encodeNodes t id = [ADFNode.text [' ']] := by simp [encodeNodes, h]
    rw [h1]
    decide
  · have h1 : encodeNodes t id = extractNodes (fullTextOf t id) := by simp [encodeNodes, h]
    rw [h1, decode_extractNodes]
    have h2 : encodeNodes (fullTextOf t id) none =
        if extractNodes (fullTextOf t id) = [] then [ADFNode.text [' ']]
        else extractNodes (fullTextOf t id) := rfl
    rw [h2, if_neg h]

/-- C9: encoding an empty string with no identity reference yields exactly the
one-element minimal whitespace text node sequence; in general, whenever token
extraction yields zero nodes the encoder emits exactly that sequence. -/
theorem c9_empty_encode :
    encodeNodes [] none = [ADFNode.text [' ']] ∧
    ∀ (t : List Char) (id : Option (List Char)),
      extractNodes (fullTextOf t id) = [] → encodeNodes t id = [ADFNode.text [' ']] := by
  constructor
  · decide
  · intro t id h; simp [encodeNodes, h]

theorem c9_empty_encode_witness :
    extractNodes (fullTextOf [] none) = [] ∧ encodeNodes [] none = [ADFNode.text [' ']] :=
  ⟨by decide, c9_empty_encode.2 [] none (by decide)⟩

theorem mem_insDesc (key : α → Nat) (x z : α) :
    ∀ (l : List α), z ∈ insDesc key x l ↔ z = x ∨ z ∈ l := by
  intro l
  induction l with
  | nil => simp [insDesc]
  | cons y ys ih =>
    by_cases hk : key y ≤ key x
    · simp [insDesc, hk]
    · simp [insDesc, hk, ih]
      tauto

theorem pairwise_insDesc (key : α → Nat) (x : α) :
    ∀ (l : List α), List.Pairwise (fun a b => key b ≤ key a) l →
      List.Pairwise (fun a b => key b ≤ key a) (insDesc key x l) := by
  intro l
  induction l with
  | nil => intro _; simp [insDesc]
  | cons y ys ih =>
    intro h
    rw [List.pairwise_cons] at h
    obtain ⟨hy, hys⟩ := h
    by_cases hk : key y ≤ key x
    · rw [insDesc, if_pos hk]
      rw [List.pairwise_cons]
      constructor
      · intro z hz
        rcases List.mem_cons.mp hz with hz | hz
        · subst hz; exact hk
        · exact le_trans (hy z hz) hk
      · rw [List.pairwise_cons]; exact ⟨hy, hys⟩
    · rw [insDesc, if_neg hk]
      rw [List.pairwise_cons]
      constructor
      · intro z hz
        rcases (mem_insDesc key x z ys).mp hz with hz | hz
        · subst hz; omega
        · exact hy z hz
      · exact ih hys

theorem pairwise_sortDesc (key : α → Nat) :
    ∀ (l : List α), List.Pairwise (fun a b => key b ≤ key a) (sortDesc key l) := by
  intro l
  induction l with
  | nil => simp [sortDesc]
  | cons x xs ih => exact pairwise_insDesc key x (sortDesc key xs) ih

theorem filter_key_insDesc (key : α → Nat) (c : Nat) (x : α) :
    ∀ (l : List α), (insDesc key x l).filter (fun p => key p == c) =
      if key x == c then x :: l.filter (fun p => key p == c)
      else l.filter (fun p => key p == c) := by
  intro l
  induction l with
  | nil => by_cases hx : key x = c <;> simp [insDesc, List.filter_cons, hx]
  | cons y ys ih =>
    by_cases hk : key y ≤ key x
    · rw [insDesc, if_pos hk]
      by_cases hx : key x = c <;> simp [List.filter_cons, hx]
    · rw [insDesc, if_neg hk]
      rw [List.filter_cons, ih, List.filter_cons]
      by_cases hx : key x = c
      · have hy : ¬ (key y = c) := by omega
        simp [hx, hy]
      · by_cases hy : key y = c <;> simp [hx, hy]

theorem filter_key_sortDesc (key : α → Nat) (c : Nat) :
    ∀ (l : List α), (sortDesc key l).filter (fun p => key p == c) =
      l.filter (fun p => key p == c) := by
  intro l
  induction l with
  | nil => rfl
  | cons x xs ih =>
    rw [sortDesc, filter_key_insDesc, ih, List.filter_cons]

/-- C8: the per-status counts of `buildProjectStatsBlocks` are emitted sorted
descending by count, and statuses with equal counts keep the order in which
their status name was first encountered in the input issue list: for every
count value, filtering the sorted tallies down to that count reproduces the
first-encountered-order tallies with that count. -/
theorem c8_status_sort_stable (issues : List Issue) :
    List.Pairwise (fun a b => b.2 ≤ a.2) (sortDesc Prod.snd (statusEntries issues)) ∧
    ∀ c : Nat, (sortDesc Prod.snd (statusEntries issues)).filter (fun p => p.2 == c) =
      (statusEntries issues).filter (fun p => p.2 == c) :=
  ⟨pairwise_sortDesc Prod.snd (statusEntries issues),
   fun c => filter_key_sortDesc Prod.snd c (statusEntries issues)⟩

theorem div_scale5_eq (m k n : Nat) (lo : 5 * (k * n) ≤ 5 * m)
    (hi : 5 * m < 5 * ((k + 1) * n)) : m / n = k :=
  Nat.div_eq_of_lt_le (Nat.le_of_mul_le_mul_left lo (by norm_num))
    (Nat.lt_of_mul_lt_mul_left hi)

theorem segOf_eq_direct (c f : Nat) (hf : 0 < f) : segOf c f = jsRound (c * 20) f := by
  have key : ∀ p rr, 2 * f * p + rr = 2 * (c * 100) + f → rr < 2 * f →
      (2 * p + 5) / 10 = (2 * (c * 20) + f) / (2 * f) := by
    intro p rr hdm hrlt
    obtain ⟨q, j, hjlt, hpe⟩ : ∃ q j, j < 5 ∧ p = 5 * q + j :=
      ⟨p / 5, p % 5, Nat.mod_lt _ (by norm_num), (Nat.div_add_mod p 5).symm⟩
    subst hpe
    have hsplit : (2 * (5 * q + j) + 5) / 10 = q + (2 * j + 5) / 10 := by
      have e : 2 * (5 * q + j) + 5 = (2 * j + 5) + 10 * q := by ring
      rw [e, Nat.add_mul_div_left _ _ (by norm_num : (0 : Nat) < 10)]
      omega
    rw [hsplit]
    interval_cases j
    · norm_num
      symm
      apply div_scale5_eq
      · linarith
      · linarith
    · norm_num
      symm
      apply div_scale5_eq
      · linarith
      · linarith
    · norm_num
      symm
      apply div_scale5_eq
      · linarith
      · linarith
    · norm_num
      symm
      apply div_scale5_eq
      · linarith
      · linarith
    · norm_num
      symm
      apply div_scale5_eq
      · linarith
      · linarith
  have hdm := Nat.div_add_mod (2 * (c * 100) + f) (2 * f)
  have hrlt : (2 * (c * 100) + f) % (2 * f) < 2 * f := Nat.mod_lt _ (by omega)
  unfold segOf percentOf jsRound
  have e1 : 2 * ((2 * (c * 100) + f) / (2 * f) * 20) + 100 =
      20 * (2 * ((2 * (c * 100) + f) / (2 * f)) + 5) := by ring
  have e2 : (2 : Nat) * 100 = 20 * 10 := by norm_num
  rw [e1, e2, Nat.mul_div_mul_left _ _ (by norm_num : (0 : Nat) < 20)]
  exact key _ _ hdm hrlt

theorem segLoop_spec (f : Nat) :
    ∀ (counts : List Nat) (r : Nat), counts ≠ [] →
      segLoop f r counts = counts.dropLast.map (fun c => segOf c f) ++
        [r - (counts.dropLast.map (fun c => segOf c f)).sum] := by
  intro counts
  induction counts with
  | nil => intro r h; exact absurd rfl h
  | cons c cs ih =>
    intro r _
    cases cs with
    | nil => simp [segLoop]
    | cons c2 cs2 =>
      rw [segLoop, ih (r - segOf c f) (by simp)]
      simp [Nat.sub_sub]

theorem segLoop_sum (f : Nat) (counts : List Nat) (h : counts ≠ []) :
    (segLoop f 20 counts).sum =
      max 20 ((counts.dropLast.map (fun c => segOf c f)).sum) := by
  rw [segLoop_spec f counts 20 h]
  simp
  omega

theorem bump_ne_nil (name : String) (l : List (String × Nat)) : bump name l ≠ [] := by
  cases l with
  | nil => simp [bump]
  | cons p rest =>
    obtain ⟨n, c⟩ := p
    by_cases hn : n = name <;> simp [bump, hn]

theorem foldl_bump_ne_nil (issues : List Issue) :
    ∀ (acc : List (String × Nat)), acc ≠ [] →
      issues.foldl (fun a i => bump (statusNameOf i) a) acc ≠ [] := by
  induction issues with
  | nil => intro acc h; simpa using h
  | cons i rest ih => intro acc _; exact ih _ (bump_ne_nil _ _)

theorem statusEntries_ne_nil (issues : List Issue) (h : issues ≠ []) :
    statusEntries issues ≠ [] := by
  cases issues with
  | nil => exact absurd rfl h
  | cons i rest =>
    unfold statusEntries
    rw [List.foldl_cons]
    exact foldl_bump_ne_nil rest _ (bump_ne_nil _ _)

theorem insDesc_ne_nil (key : α → Nat) (x : α) (l : List α) : insDesc key x l ≠ [] := by
  cases l with
  | nil => simp [insDesc]
  | cons y ys => by_cases h : key y ≤ key x <;> simp [insDesc, h]

theorem sortDesc_ne_nil (key : α → Nat) (l : List α) (h : l ≠ []) : sortDesc key l ≠ [] := by
  cases l with
  | nil => exact absurd rfl h
  | cons x xs => rw [sortDesc]; exact insDesc_ne_nil key x _

/-- C1 (amended): for every non-empty input issue list, every status except
the last in sorted order is allocated `round(count / fetched * 20)` units and
the last status receives `20` minus the sum of the prior allocations floored
at zero; consequently the allocated units sum to `max 20 S` where `S` is the
sum of the non-last allocations — this equals exactly 20 only when `S ≤ 20`,
and exceeds 20 otherwise. -/
theorem c1_bar_allocation_amended (m : MetricsData) (h : m.issues ≠ []) :
    statusSegmentsOf m =
      ((sortedStatusesOf m).map Prod.snd).dropLast.map
          (fun c => jsRound (c * 20) m.issues.length) ++
        [20 - (((sortedStatusesOf m).map Prod.snd).dropLast.map
          (fun c => jsRound (c * 20) m.issues.length)).sum] ∧
    (statusSegmentsOf m).sum =
      max 20 ((((sortedStatusesOf m).map Prod.snd).dropLast.map
        (fun c => jsRound (c * 20) m.issues.length)).sum) := by
  have hf : 0 < m.issues.length := List.length_pos.mpr h
  have hcounts : (sortedStatusesOf m).map Prod.snd ≠ [] := by
    have hs := sortDesc_ne_nil Prod.snd _ (statusEntries_ne_nil m.issues h)
    simpa [sortedStatusesOf] using hs
  have hmapeq : ((sortedStatusesOf m).map Prod.snd).dropLast.map
        (fun c => segOf c m.issues.length) =
      ((sortedStatusesOf m).map Prod.snd).dropLast.map
        (fun c => jsRound (c * 20) m.issues.length) :=
    List.map_congr_left (fun c _ => segOf_eq_direct c _ hf)
  constructor
  · rw [statusSegmentsOf, segLoop_spec _ _ _ hcounts, hmapeq]
  · rw [statusSegmentsOf, segLoop_sum _ _ hcounts, hmapeq]

/-- A single-issue input, on which the bar total is exactly 20. -/
def m1 : MetricsData := ⟨none, [Issue.mk (some "A") none none]⟩

theorem c1_bar_allocation_witness :
    m1.issues ≠ [] ∧
    (statusSegmentsOf m1 =
      ((sortedStatusesOf m1).map Prod.snd).dropLast.map
          (fun c => jsRound (c * 20) m1.issues.length) ++
        [20 - (((sortedStatusesOf m1).map Prod.snd).dropLast.map
          (fun c => jsRound (c * 20) m1.issues.length)).sum] ∧
    (statusSegmentsOf m1).sum =
      max 20 ((((sortedStatusesOf m1).map Prod.snd).dropLast.map
        (fun c => jsRound (c * 20) m1.issues.length)).sum)) :=
  ⟨by decide, c1_bar_allocation_amended m1 (by decide)⟩

/-- C1 counterexample: on eight issues spread over eight distinct statuses the
allocated progress-bar units sum to 21, not 20 — each of the seven non-last
statuses rounds 12.5 percent up to 3 units, exhausting and overrunning the bar
before the last status is reached. -/
theorem c1_bar_sum_counterexample :
    (statusSegmentsOf m8).sum = 21 ∧ ¬ ((statusSegmentsOf m8).sum = 20) := by
  constructor <;> decide

theorem sectionFieldLens_append (bs cs : List Block) :
    sectionFieldLens (bs ++ cs) = sectionFieldLens bs ++ sectionFieldLens cs := by
  simp [sectionFieldLens]

theorem flushFold_lens (domain : String) :
    ∀ (issues : List UserIssue) (cur : List String),
      sectionFieldLens (flushFold domain cur issues) = lenLoop cur.length issues.length := by
  intro issues
  induction issues with
  | nil => intro cur; rfl
  | cons i rest ih =>
    intro cur
    have hc : (cur ++ taskCells domain i).length = cur.length + 2 := by
      simp [taskCells]
    cases rest with
    | nil => simp [flushFold, lenLoop, sectionFieldLens, hc]
    | cons i2 rest2 =>
      simp only [flushFold, hc, List.length_cons]
      rw [lenLoop]
      simp only [Nat.succ_ne_zero, if_false, Nat.add_eq_zero, List.length_cons]
      by_cases h10 : 10 ≤ cur.length + 2
      · rw [if_pos h10, if_pos h10]
        have hstep : sectionFieldLens
            (Block.sectionFields (cur ++ taskCells domain i) ::
              flushFold domain [] (i2 :: rest2)) =
            (cur ++ taskCells domain i).length ::
              sectionFieldLens (flushFold domain [] (i2 :: rest2)) := by
          simp [sectionFieldLens]
        rw [hstep, hc, ih []]
        simp [List.length_cons]
      · rw [if_neg h10, if_neg h10]
        rw [ih (cur ++ taskCells domain i), hc]
        simp [List.length_cons]

/-- C5: a 23-issue task list paginates into exactly 5 field groups — the first
four full at the 10-field-cell ceiling (the first holding the two column-title
cells plus four issue pairs, the next three five pairs each), the last group
partial with 8 cells. -/
theorem c5_pagination_23 (rawDomain displayName : String) (data : IssuesData)
    (h : data.issues.length = 23) :
    sectionFieldLens (buildUserIssuesBlocks rawDomain data displayName) =
      [10, 10, 10, 10, 8] ∧
    (sectionFieldLens (buildUserIssuesBlocks rawDomain data displayName)).length = 5 := by
  have hne : ¬ (data.issues.isEmpty = true) := by
    simp only [List.isEmpty_iff]
    intro hnil
    rw [hnil] at h
    simp at h
  have hmain : sectionFieldLens (buildUserIssuesBlocks rawDomain data displayName) =
      [10, 10, 10, 10, 8] := by
    rw [buildUserIssuesBlocks, if_neg hne, sectionFieldLens_append, sectionFieldLens_append,
      flushFold_lens, h]
    simp [sectionFieldLens]
    decide
  exact ⟨hmain, by rw [hmain]; rfl⟩

theorem c5_pagination_23_witness :
    sample23.issues.length = 23 ∧
    (sectionFieldLens (buildUserIssuesBlocks "d.atlassian.net" sample23 "Dev") =
      [10, 10, 10, 10, 8] ∧
    (sectionFieldLens (buildUserIssuesBlocks "d.atlassian.net" sample23 "Dev")).length = 5) :=
  ⟨by decide, c5_pagination_23 "d.atlassian.net" "Dev" sample23 (by decide)⟩

/-- C7 (amended): each statistics builder returns its explicit empty-state
single-section document exactly when the effective total
(`metricsData.total || issues.length`) is zero — that is, when the issue list
is empty and `total` is absent or zero.  An input whose `total` is non-zero
but whose issue list is empty instead yields a populated document with zero
counts. -/
theorem c7_empty_state_amended (m : MetricsData) (k : String) :
    (buildProjectStatsBlocks m k = projectStatsEmptyState k ↔ jsTotal m = 0) ∧
    (buildAssigneeStatsBlocks m k = assigneeStatsEmptyState k ↔ jsTotal m = 0) ∧
    (jsTotal m = 0 ↔ m.issues = [] ∧ (m.total = none ∨ m.total = some 0)) := by
  refine ⟨⟨?_, ?_⟩, ⟨?_, ?_⟩, ?_⟩
  · intro heq
    by_cases hz : jsTotal m = 0
    · exact hz
    · rw [buildProjectStatsBlocks, if_neg hz] at heq
      simp [projectStatsEmptyState] at heq
  · intro hz; rw [buildProjectStatsBlocks, if_pos hz]
  · intro heq
    by_cases hz : jsTotal m = 0
    · exact hz
    · rw [buildAssigneeStatsBlocks, if_neg hz] at heq
      simp [assigneeStatsEmptyState] at heq
  · intro hz; rw [buildAssigneeStatsBlocks, if_pos hz]
  · cases ht : m.total with
    | none => simp [jsTotal, ht, List.length_eq_zero]
    | some n =>
      by_cases hn : n = 0
      · subst hn; simp [jsTotal, ht, List.length_eq_zero]
      · simp [jsTotal, ht, hn]

/-- C7 counterexample: the input reporting five backlog issues with an empty
issue page contains zero issues yet yields populated zero-count documents from
both builders, not the empty-state documents. -/
theorem c7_empty_state_counterexample :
    mTotalOnly.issues = [] ∧
    ¬ (buildProjectStatsBlocks mTotalOnly "PROJ" = projectStatsEmptyState "PROJ") ∧
    ¬ (buildAssigneeStatsBlocks mTotalOnly "PROJ" = assigneeStatsEmptyState "PROJ") := by
  refine ⟨rfl, ?_, ?_⟩ <;> decide

/-- C10: the re-assign select menu is rendered exactly when the
assignable-users list is non-empty; when rendered it is the unique select of
the document and holds the null-account "Unassigned" option first, followed by
the first 99 assignable users in input order with the issue key and account id
embedded as correlation values — hence never more than 100 options. -/
theorem c10_assign_menu (rawDomain : String) (issue : IssueData) (issueKey : String)
    (transitions : List Transition) (users : List JUser) :
    selectMenus (buildIssueMessageBlocks rawDomain issue issueKey transitions users) =
      (if users.isEmpty then []
       else [SelectOption.mk "👤 Unassigned" issueKey none ::
         (users.take 99).map (fun u => SelectOption.mk u.displayName issueKey (some u.accountId))]) ∧
    (selectMenus (buildIssueMessageBlocks rawDomain issue issueKey transitions users)).all
      (fun opts => decide (opts.length ≤ 100)) = true := by
  constructor
  · by_cases hu : users.isEmpty <;> by_cases ht : transitions.isEmpty <;>
      simp [buildIssueMessageBlocks, selectMenus, hu, ht]
  · by_cases hu : users.isEmpty <;> by_cases ht : transitions.isEmpty <;>
      simp [buildIssueMessageBlocks, selectMenus, hu, ht]

theorem keysOf_save (db : Db) (sid acc email : String) :
    (saveUserMapping db sid acc email).map (fun m => m.slack_id) =
      if sid ∈ db.map (fun m => m.slack_id) then db.map (fun m => m.slack_id)
      else db.map (fun m => m.slack_id) ++ [sid] := by
  induction db with
  | nil => simp [saveUserMapping]
  | cons m rest ih =>
    by_cases hm : m.slack_id = sid
    · simp [saveUserMapping, hm]
    · simp only [saveUserMapping, if_neg hm, List.map_cons, ih]
      by_cases hmem : sid ∈ rest.map (fun m => m.slack_id)
      · simp [List.mem_cons, hmem]
      · have hne2 : ¬ (sid = m.slack_id) := fun hh => hm hh.symm
        simp [List.mem_cons, hmem, hne2]

theorem save_keyUnique (db : Db) (sid acc email : String) (h : KeyUnique db) :
    KeyUnique (saveUserMapping db sid acc email) := by
  unfold KeyUnique at *
  rw [keysOf_save]
  by_cases hmem : sid ∈ db.map (fun m => m.slack_id)
  · simpa [hmem] using h
  · simp [hmem, List.nodup_append, h]

theorem delete_keyUnique (db : Db) (sid : String) (h : KeyUnique db) :
    KeyUnique (deleteUserMapping db sid) := by
  unfold KeyUnique at *
  unfold deleteUserMapping
  exact List.Nodup.sublist ((List.filter_sublist db).map _) h

theorem getUserMapping_save_self (db : Db) (sid acc email : String) :
    getUserMapping (saveUserMapping db sid acc email) sid =
      some (UserMapping.mk sid acc email) := by
  induction db with
  | nil => simp [saveUserMapping, getUserMapping, List.find?]
  | cons m rest ih =>
    by_cases hm : m.slack_id = sid
    · simp [saveUserMapping, hm, getUserMapping, List.find?]
    · simp only [saveUserMapping, if_neg hm]
      unfold getUserMapping at *
      rw [List.find?_cons_of_neg _ (by simp [hm])]
      exact ih

theorem filter_key_length (db : Db) (sid : String) :
    (db.filter (fun m => m.slack_id == sid)).length =
      (db.map (fun m => m.slack_id)).count sid := by
  induction db with
  | nil => rfl
  | cons m rest ih =>
    by_cases hm : m.slack_id = sid
    · simp [List.filter_cons, List.count_cons, hm, ih]
    · have hne2 : ¬ (sid = m.slack_id) := fun hh => hm hh.symm
      simp [List.filter_cons, List.count_cons, hm, hne2, ih]

theorem mem_keys_save (db : Db) (sid acc email : String) :
    sid ∈ (saveUserMapping db sid acc email).map (fun m => m.slack_id) := by
  rw [keysOf_save]
  by_cases hmem : sid ∈ db.map (fun m => m.slack_id) <;> simp [hmem]

/-- C6: linking a chat id twice (two successful `/jira-map` commands) leaves
exactly one identity mapping for that id, which resolves to the
second-committed account; the at-most-one-mapping-per-chat-id invariant is
preserved by upsert and delete (and lookup does not mutate). -/
theorem c6_link_upsert (db : Db) (A X Y eX eY s acc email : String) (h : KeyUnique db) :
    ((saveUserMapping (saveUserMapping db A X eX) A Y eY).filter
        (fun mp => mp.slack_id == A)).length = 1 ∧
    getUserMapping (saveUserMapping (saveUserMapping db A X eX) A Y eY) A =
      some (UserMapping.mk A Y eY) ∧
    KeyUnique (saveUserMapping (saveUserMapping db A X eX) A Y eY) ∧
    KeyUnique (saveUserMapping db s acc email) ∧
    KeyUnique (deleteUserMapping db s) := by
  have h2 : KeyUnique (saveUserMapping (saveUserMapping db A X eX) A Y eY) :=
    save_keyUnique _ _ _ _ (save_keyUnique db A X eX h)
  refine ⟨?_, getUserMapping_save_self _ _ _ _, h2,
    save_keyUnique db s acc email h, delete_keyUnique db s h⟩
  rw [filter_key_length]
  exact List.count_eq_one_of_mem h2 (mem_keys_save _ _ _ _)

theorem c6_link_upsert_witness :
    KeyUnique ([] : Db) ∧
    (((saveUserMapping (saveUserMapping [] "U1" "X" "x@e") "U1" "Y" "y@e").filter
        (fun mp => mp.slack_id == "U1")).length = 1 ∧
      getUserMapping (saveUserMapping (saveUserMapping [] "U1" "X" "x@e") "U1" "Y" "y@e") "U1" =
        some (UserMapping.mk "U1" "Y" "y@e") ∧
      KeyUnique (saveUserMapping (saveUserMapping [] "U1" "X" "x@e") "U1" "Y" "y@e") ∧
      KeyUnique (saveUserMapping [] "U2" "Z" "z@e") ∧
      KeyUnique (deleteUserMapping [] "U2")) :=
  ⟨by simp [KeyUnique],
   c6_link_upsert [] "U1" "X" "Y" "x@e" "y@e" "U2" "Z" "z@e" (by simp [KeyUnique])⟩

/-- C2 (amended): transitioning against a tracker whose mutation fails — with
404 or any other code — acknowledges, shows the in-place placeholder, attempts
the mutation, then logs and emits one generic actor-only failure notice that
does not replace the surface and is identical for every error class; no audit
comment is attempted, and the stale in-progress placeholder remains the last
in-place replacement of the issue surface. -/
theorem c2_transition_404_amended (env : CallEnv) (e : Nat) (key tid sid : String)
    (label : Option String) :
    handleTransitionAction { env with transitionIssue := Except.error e }
        (some (key, tid)) label sid =
      [Effect.ack, Effect.respond true false ("⏳ *Updating status for " ++ key ++ "...*"),
       Effect.callTransition key tid, Effect.logErr "transition-action" e,
       Effect.respond false true "❌ Failed to update issue."] ∧
    (handleTransitionAction { env with transitionIssue := Except.error e }
        (some (key, tid)) label sid).all (fun ef => !(isAddCommentCall ef)) = true ∧
    lastReplacing (handleTransitionAction { env with transitionIssue := Except.error e }
        (some (key, tid)) label sid) =
      some (Effect.respond true false ("⏳ *Updating status for " ++ key ++ "...*")) := by
  have h1 : handleTransitionAction { env with transitionIssue := Except.error e }
      (some (key, tid)) label sid =
      [Effect.ack, Effect.respond true false ("⏳ *Updating status for " ++ key ++ "...*"),
       Effect.callTransition key tid, Effect.logErr "transition-action" e,
       Effect.respond false true "❌ Failed to update issue."] := rfl
  refine ⟨h1, ?_, ?_⟩
  · rw [h1]; simp [isAddCommentCall]
  · rw [h1]; simp [lastReplacing, isReplacingEffect, List.find?]

/-- C2 counterexample: for the 404 transition of "PROJ-5", the actor-visible
responses are identical to those of any other failure code (nothing
NotFound-specific is shown), and the stale placeholder does remain the last
in-place replacement of the surface — refuting the claim's conjunction (its
no-audit-comment part alone holds). -/
theorem c2_transition_404_counterexample :
    ¬ ((respondsOf (handleTransitionAction env404 (some ("PROJ-5", "31")) (some "Done") "U1") ≠
          respondsOf (handleTransitionAction env500 (some ("PROJ-5", "31")) (some "Done") "U1")) ∧
       (handleTransitionAction env404 (some ("PROJ-5", "31")) (some "Done") "U1").all
          (fun ef => !(isAddCommentCall ef)) = true ∧
       lastReplacing (handleTransitionAction env404 (some ("PROJ-5", "31")) (some "Done") "U1") ≠
          some (Effect.respond true false "⏳ *Updating status for PROJ-5...*")) := by
  intro hcl
  exact hcl.1 (by decide)

/-- C3 (amended): after a successful mutation, `handleTransitionAction`
isolates the audit step — whatever the identity lookup and comment write do,
the run re-fetches and ends with the in-place re-render, and the audit step
itself only calls its own two collaborators and logs — whereas in
`handleAssignIssueAction` a failure of the identity lookup or of the audit
comment write aborts the run with the generic failure notice before any
re-fetch or re-render (the completed mutation is never compensated). -/
theorem c3_audit_isolation_amended (env : CallEnv) (key tid sid : String)
    (label : Option String) (acc : Option String) (m : Option String) (code : Nat) :
    handleTransitionAction
        { env with transitionIssue := Except.ok (), getIssue := Except.ok (),
                   getTransitions := Except.ok () } (some (key, tid)) label sid =
      Effect.ack ::
        Effect.respond true false ("⏳ *Updating status for " ++ key ++ "...*") ::
        Effect.callTransition key tid ::
        (transitionAuditTrace
            { env with transitionIssue := Except.ok (), getIssue := Except.ok (),
                       getTransitions := Except.ok () } key sid label ++
          Effect.callGetIssue key ::
            Effect.callGetTransitions key ::
            (projectUsersTrace
                { env with transitionIssue := Except.ok (), getIssue := Except.ok (),
                           getTransitions := Except.ok () } key ++
              [Effect.respondBlocks true key])) ∧
    (transitionAuditTrace env key sid label).all isAuditStepEffect = true ∧
    handleAssignIssueAction
        { env with assignIssue := Except.ok (), getUserMapping := Except.error () }
        (some (some (key, acc))) sid =
      [Effect.ack, Effect.respond true false ("⏳ *Updating assignee for " ++ key ++ "...*"),
       Effect.callAssignIssue key acc, Effect.callGetUserMapping sid,
       Effect.logDbErr "assign-action",
       Effect.respond false true "❌ Failed to re-assign issue."] ∧
    rerendered (handleAssignIssueAction
        { env with assignIssue := Except.ok (), getUserMapping := Except.error () }
        (some (some (key, acc))) sid) = false ∧
    handleAssignIssueAction
        { env with assignIssue := Except.ok (), getUserMapping := Except.ok m,
                   addComment := Except.error code } (some (some (key, acc))) sid =
      [Effect.ack, Effect.respond true false ("⏳ *Updating assignee for " ++ key ++ "...*"),
       Effect.callAssignIssue key acc, Effect.callGetUserMapping sid,
       Effect.callAddComment key (assignAuditComment acc m sid),
       Effect.logErr "assign-action" code,
       Effect.respond false true "❌ Failed to re-assign issue."] := by
  refine ⟨rfl, ?_, rfl, rfl, rfl⟩
  unfold transitionAuditTrace
  by_cases hsid : sid = ""
  · simp [hsid]
  · simp only [if_neg hsid]
    cases env.getUserMapping with
    | error u => simp [isAuditStepEffect]
    | ok userMap =>
      cases env.addComment with
      | error c => simp [isAuditStepEffect]
      | ok u => simp [isAuditStepEffect]

/-- C3 counterexample: in `handleAssignIssueAction`, a failed identity lookup
after a successful re-assignment aborts the run before the re-fetch — the
terminal re-render is never reached, refuting the claim that audit-step
failures never prevent it. -/
theorem c3_audit_isolation_counterexample :
    ¬ (∀ (env : CallEnv) (key sid : String) (acc : Option String),
        env.assignIssue = Except.ok () → env.getUserMapping = Except.error () →
        rerendered (handleAssignIssueAction env (some (some (key, acc))) sid) = true) := by
  intro hcl
  have h := hcl envAuditFail "PROJ-7" "U9" (some "acc123") rfl rfl
  exact absurd h (by decide)
